import Mathlib

/-!
Verification of the sixel image-compositing example (`examples/image.rs`).

The development shallowly embeds the compositing core:
* `Rect`, `Cell`, `Buffer` model the cell grid the compositor writes into
  (the grid type itself lives outside the provided sources, so it is
  modelled from the spec's data model, see the doc comments below);
* `Image.render` embeds `impl Widget for &Image { fn render(...) }`;
* `resize_to_terminal` embeds the grid-aligned resize step;
* `Sixel.ofImage` / `App.new` embed the fallible build pipeline,
  where a Rust `panic!` (from `.unwrap()`, `% 0`, or a failed
  `try_into()`) is modelled as the result `none`.
-/

/-- Modelled from the spec: `ratatui::layout::Rect` is not among the provided
sources; per the spec a target rectangle is `{x, y, width, height}` with
`left = x`, `right = x + width`, `top = y`, `bottom = y + height`. -/
structure Rect where
  x : Nat
  y : Nat
  width : Nat
  height : Nat
  deriving DecidableEq, Repr

def Rect.left (r : Rect) : Nat := r.x

def Rect.right (r : Rect) : Nat := r.x + r.width

def Rect.top (r : Rect) : Nat := r.y

def Rect.bottom (r : Rect) : Nat := r.y + r.height

/-- `(i, j)` is one of the cells covered by the rectangle `r`. -/
def Rect.containsCell (r : Rect) (i j : Nat) : Prop :=
  r.left ≤ i ∧ i < r.right ∧ r.top ≤ j ∧ j < r.bottom

instance (r : Rect) (i j : Nat) : Decidable (r.containsCell i j) := by
  unfold Rect.containsCell
  exact inferInstance

/-- Modelled from the spec: `ratatui::buffer::Cell` is not among the provided
sources; per the spec a cell is `{ symbol, style, skip }`. The style is an
opaque token (its structure is never touched by this core). -/
structure Cell where
  symbol : String
  style : Nat
  skip : Bool
  deriving DecidableEq, Repr

def Cell.set_skip (c : Cell) (v : Bool) : Cell := { c with skip := v }

def Cell.set_symbol (c : Cell) (s : String) : Cell := { c with symbol := s }

/-- Modelled from the spec: `ratatui::buffer::Buffer` is not among the provided
sources; per the spec it is a mutable grid of `width * height` cells. -/
structure Buffer where
  width : Nat
  height : Nat
  cells : Nat → Nat → Cell

/-- Modelled from the spec: `Buffer::get_mut(x, y)` hands out the cell at
`(x, y)` for update (here fused with the update applied to it, since the
embedding is pure). The grid owns cells only at coordinates inside
`[0, width) × [0, height)`; an access outside that range has no cell to
return and is a fault, modelled as `none`. -/
def Buffer.get_mut (b : Buffer) (x y : Nat) (f : Cell → Cell) : Option Buffer :=
  if x < b.width ∧ y < b.height then
    some ⟨b.width, b.height,
      fun i j => if i = x ∧ j = y then f (b.cells i j) else b.cells i j⟩
  else
    none

/-- `struct Image { data: String, rect: Rect }` from `examples/image.rs`. -/
structure Image where
  data : String
  rect : Rect

/-- The inner `for x in self.rect.left()..self.rect.right()` loop of
`Image::render`: set `skip = true` on every listed column of row `y`. -/
def skipCols (y : Nat) (xs : List Nat) (b : Buffer) : Option Buffer :=
  match xs with
  | [] => some b
  | x :: rest =>
    match b.get_mut x y (fun c => c.set_skip true) with
    | none => none
    | some b' => skipCols y rest b'

/-- The outer `for y in self.rect.top()..self.rect.bottom()` loop of
`Image::render`. -/
def skipRows (xs : List Nat) (ys : List Nat) (b : Buffer) : Option Buffer :=
  match ys with
  | [] => some b
  | y :: rest =>
    match skipCols y xs b with
    | none => none
    | some b' => skipRows xs rest b'

/-- `impl Widget for &Image { fn render(self, area, buf) }` from
`examples/image.rs`: early-return on an empty `area`, mark every cell of
`self.rect` skipped, then write the payload into the top-left cell with
`skip = false`. -/
def Image.render (img : Image) (area : Rect) (buf : Buffer) : Option Buffer :=
  if area.width = 0 ∨ area.height = 0 then
    some buf
  else
    match skipRows (List.range' img.rect.left img.rect.width)
        (List.range' img.rect.top img.rect.height) buf with
    | none => none
    | some b =>
      b.get_mut img.rect.left img.rect.top
        (fun c => (c.set_skip false).set_symbol img.data)

/-- `fn resize_to_terminal(img)` from `examples/image.rs`, with the
terminal-size probe results (`cols`, `rows`, `pxW`, `pxH`) passed in as a
geometry snapshot. Returns the pixel width/height handed to
`resize_to_fill` (the external resampler produces exactly those output
dimensions) together with the cell-footprint `Rect`. Rust panics are
modelled as `none`: a `u16` division by zero (`width / cols`), the
`img.width() % char_width` remainder by zero when a derived cell dimension
is `0`, and the `try_into::<u16>().unwrap()` on a footprint exceeding
`u16::MAX`. -/
def resize_to_terminal (cols rows pxW pxH imgW imgH : Nat) : Option (Nat × Nat × Rect) :=
  if cols = 0 ∨ rows = 0 then
    none
  else
    let char_width := pxW / cols
    let char_height := pxH / rows
    if char_width = 0 ∨ char_height = 0 then
      none
    else
      let resize_w := imgW - imgW % char_width
      let resize_h := imgH - imgH % char_height
      if resize_w / char_width < 65536 ∧ resize_h / char_height < 65536 then
        some (resize_w, resize_h, ⟨0, 0, resize_w / char_width, resize_h / char_height⟩)
      else
        none

/-- `struct Sixel { data: String, rect: Rect }` from `examples/image.rs`. -/
structure Sixel where
  data : String
  rect : Rect

/-- `impl From<DynamicImage> for Sixel` from `examples/image.rs`. The external
encoder pipeline (sixel encoder construction, encoding, tmp-file round trip)
is abstracted as the `encoded` argument per the spec's external-collaborator
contract `encode(...) -> payload | error`; every failure in it is hit by an
`.unwrap()` in the source, i.e. a panic, modelled as `none`. -/
def Sixel.ofImage (cols rows pxW pxH imgW imgH : Nat) (encoded : Option String) :
    Option Sixel :=
  match resize_to_terminal cols rows pxW pxH imgW imgH with
  | none => none
  | some (_, _, rect) =>
    match encoded with
    | none => none
    | some data => some ⟨data, rect⟩

/-- `struct App { scroll: u16, image: Image }` from `examples/image.rs`. -/
structure App where
  scroll : Nat
  image : Image

/-- `App::new()` from `examples/image.rs`: decode the source bitmap
(`decoded`, the external decoder result: its pixel dimensions) and build the
`Sixel`, converting it into the `Image`. Both decode failure and any build
failure are hit by `.unwrap()` in the source, i.e. a panic, modelled as
`none`. `App::new()` is called by `main` before the render loop starts. -/
def App.new (decoded : Option (Nat × Nat)) (cols rows pxW pxH : Nat)
    (encoded : Option String) : Option App :=
  match decoded with
  | none => none
  | some (w, h) =>
    match Sixel.ofImage cols rows pxW pxH w h encoded with
    | none => none
    | some s => some ⟨0, ⟨s.data, s.rect⟩⟩

/-- The grid state produced by a successful `Image::render` with a non-empty
`area`: the anchor holds the payload with `skip = false`, every other covered
cell is skip-marked, and everything else is untouched. -/
def compositeResult (img : Image) (b : Buffer) : Buffer :=
  ⟨b.width, b.height, fun i j =>
    if i = img.rect.left ∧ j = img.rect.top then
      ((b.cells i j).set_skip false).set_symbol img.data
    else if img.rect.containsCell i j then
      (b.cells i j).set_skip true
    else
      b.cells i j⟩

/-! ### Helper lemmas about the grid primitive -/

theorem Buffer.ext_of (b₁ b₂ : Buffer) (hw : b₁.width = b₂.width)
    (hh : b₁.height = b₂.height) (hc : ∀ i j, b₁.cells i j = b₂.cells i j) :
    b₁ = b₂ := by
  cases b₁
  cases b₂
  simp only [Buffer.mk.injEq]
  refine ⟨hw, hh, ?_⟩
  funext i j
  exact hc i j

theorem get_mut_some {b b' : Buffer} {x y : Nat} {f : Cell → Cell}
    (h : b.get_mut x y f = some b') :
    x < b.width ∧ y < b.height ∧ b'.width = b.width ∧ b'.height = b.height ∧
      ∀ i j, b'.cells i j = if i = x ∧ j = y then f (b.cells i j) else b.cells i j := by
  unfold Buffer.get_mut at h
  split at h
  · cases h
    exact ⟨‹x < b.width ∧ y < b.height›.1, ‹x < b.width ∧ y < b.height›.2, rfl, rfl,
      fun i j => rfl⟩
  · cases h

theorem get_mut_of_lt {b : Buffer} {x y : Nat} (f : Cell → Cell)
    (hx : x < b.width) (hy : y < b.height) :
    b.get_mut x y f = some ⟨b.width, b.height,
      fun i j => if i = x ∧ j = y then f (b.cells i j) else b.cells i j⟩ := by
  unfold Buffer.get_mut
  exact if_pos ⟨hx, hy⟩

theorem set_skip_set_skip (c : Cell) (a b : Bool) :
    (c.set_skip a).set_skip b = c.set_skip b := rfl

theorem skipCols_some {y : Nat} {xs : List Nat} {b b' : Buffer}
    (h : skipCols y xs b = some b') :
    b'.width = b.width ∧ b'.height = b.height ∧
      (∀ x ∈ xs, x < b.width ∧ y < b.height) ∧
      ∀ i j, b'.cells i j =
        if j = y ∧ i ∈ xs then (b.cells i j).set_skip true else b.cells i j := by
  induction xs generalizing b with
  | nil =>
    cases h
    exact ⟨rfl, rfl, by simp, fun i j => by simp⟩
  | cons x rest ih =>
    unfold skipCols at h
    cases hw : b.get_mut x y (fun c => c.set_skip true) with
    | none => rw [hw] at h; cases h
    | some b₁ =>
      rw [hw] at h
      obtain ⟨hx, hy, hW, hH, hcells⟩ := get_mut_some hw
      obtain ⟨iW, iH, ibnd, icells⟩ := ih h
      refine ⟨iW.trans hW, iH.trans hH, ?_, ?_⟩
      · intro z hz
        rcases List.mem_cons.mp hz with rfl | hz
        · exact ⟨hx, hy⟩
        · have := ibnd z hz
          rw [hW, hH] at this
          exact this
      · intro i j
        rw [icells i j, hcells i j]
        by_cases hj : j = y
        · subst hj
          by_cases hix : i = x
          · subst hix
            by_cases hir : i ∈ rest <;>
              simp [hir, Cell.set_skip]
          · by_cases hir : i ∈ rest <;>
              simp [hir, hix]
        · simp [hj]

theorem skipCols_isSome {y : Nat} {xs : List Nat} {b : Buffer}
    (h : ∀ x ∈ xs, x < b.width ∧ y < b.height) :
    ∃ b', skipCols y xs b = some b' := by
  induction xs generalizing b with
  | nil => exact ⟨b, rfl⟩
  | cons x rest ih =>
    obtain ⟨hx, hy⟩ := h x (List.mem_cons_self x rest)
    have hw := get_mut_of_lt (b := b) (x := x) (y := y) (fun c => c.set_skip true) hx hy
    obtain ⟨b', hb'⟩ := ih (b := ⟨b.width, b.height, fun i j =>
      if i = x ∧ j = y then (b.cells i j).set_skip true else b.cells i j⟩)
      (fun z hz => h z (List.mem_cons_of_mem x hz))
    refine ⟨b', ?_⟩
    unfold skipCols
    rw [hw]
    exact hb'

theorem skipRows_some {xs ys : List Nat} {b b' : Buffer}
    (h : skipRows xs ys b = some b') :
    b'.width = b.width ∧ b'.height = b.height ∧
      (∀ y ∈ ys, ∀ x ∈ xs, x < b.width ∧ y < b.height) ∧
      ∀ i j, b'.cells i j =
        if j ∈ ys ∧ i ∈ xs then (b.cells i j).set_skip true else b.cells i j := by
  induction ys generalizing b with
  | nil =>
    cases h
    exact ⟨rfl, rfl, by simp, fun i j => by simp⟩
  | cons y rest ih =>
    unfold skipRows at h
    cases hc : skipCols y xs b with
    | none => rw [hc] at h; cases h
    | some b₁ =>
      rw [hc] at h
      obtain ⟨hW, hH, hbnd, hcells⟩ := skipCols_some hc
      obtain ⟨iW, iH, ibnd, icells⟩ := ih h
      refine ⟨iW.trans hW, iH.trans hH, ?_, ?_⟩
      · intro z hz
        rcases List.mem_cons.mp hz with rfl | hz
        · exact hbnd
        · intro x hx
          have := ibnd z hz x hx
          rw [hW, hH] at this
          exact this
      · intro i j
        rw [icells i j, hcells i j]
        by_cases hix : i ∈ xs
        · by_cases hjy : j = y
          · subst hjy
            by_cases hjr : j ∈ rest <;>
              simp [hix, hjr, Cell.set_skip]
          · by_cases hjr : j ∈ rest <;>
              simp [hix, hjr, hjy]
        · simp [hix]

theorem skipRows_isSome {xs ys : List Nat} {b : Buffer}
    (h : ∀ y ∈ ys, ∀ x ∈ xs, x < b.width ∧ y < b.height) :
    ∃ b', skipRows xs ys b = some b' := by
  induction ys generalizing b with
  | nil => exact ⟨b, rfl⟩
  | cons y rest ih =>
    obtain ⟨b₁, hb₁⟩ := skipCols_isSome (h y (List.mem_cons_self y rest))
    obtain ⟨hW, hH, -, -⟩ := skipCols_some hb₁
    obtain ⟨b', hb'⟩ := ih (b := b₁) (fun z hz x hx => by
      rw [hW, hH]
      exact h z (List.mem_cons_of_mem y hz) x hx)
    refine ⟨b', ?_⟩
    unfold skipRows
    rw [hb₁]
    exact hb'

theorem skipRows_eq_none {xs ys : List Nat} {b : Buffer}
    (h : ∃ y ∈ ys, ∃ x ∈ xs, ¬(x < b.width ∧ y < b.height)) :
    skipRows xs ys b = none := by
  cases hres : skipRows xs ys b with
  | none => rfl
  | some b' =>
    obtain ⟨y, hy, x, hx, hnot⟩ := h
    exact absurd ((skipRows_some hres).2.2.1 y hy x hx) hnot

/-- Characterization of a completed `Image::render` with a non-empty `area`:
whenever every cell covered by `self.rect` and the anchor coordinate are
inside the grid, the render succeeds and produces `compositeResult`. -/
theorem render_eq_some (img : Image) (area : Rect) (b : Buffer)
    (haw : area.width ≠ 0) (hah : area.height ≠ 0)
    (hb : ∀ j ∈ List.range' img.rect.top img.rect.height,
      ∀ i ∈ List.range' img.rect.left img.rect.width, i < b.width ∧ j < b.height)
    (hxa : img.rect.left < b.width) (hya : img.rect.top < b.height) :
    img.render area b = some (compositeResult img b) := by
  unfold Image.render
  rw [if_neg (by simp [haw, hah])]
  obtain ⟨b₁, hb₁⟩ := skipRows_isSome hb
  rw [hb₁]
  obtain ⟨hW, hH, -, hcells⟩ := skipRows_some hb₁
  show b₁.get_mut img.rect.left img.rect.top
      (fun c => (c.set_skip false).set_symbol img.data) = some (compositeResult img b)
  rw [get_mut_of_lt _ (by rw [hW]; exact hxa) (by rw [hH]; exact hya)]
  refine congrArg some (Buffer.ext_of _ _ hW hH ?_)
  intro i j
  simp only [compositeResult]
  rw [hcells i j]
  by_cases hanch : i = img.rect.left ∧ j = img.rect.top
  · rw [if_pos hanch, if_pos hanch]
    by_cases hm : j ∈ List.range' img.rect.top img.rect.height ∧
        i ∈ List.range' img.rect.left img.rect.width
    · rw [if_pos hm]
      rfl
    · rw [if_neg hm]
  · rw [if_neg hanch, if_neg hanch]
    have hiff : (j ∈ List.range' img.rect.top img.rect.height ∧
        i ∈ List.range' img.rect.left img.rect.width) ↔ img.rect.containsCell i j := by
      unfold Rect.containsCell Rect.left Rect.right Rect.top Rect.bottom
      simp only [List.mem_range'_1]
      tauto
    by_cases hm : img.rect.containsCell i j
    · rw [if_pos (hiff.mpr hm), if_pos hm]
    · rw [if_neg (fun hh => hm (hiff.mp hh)), if_neg hm]

/-- Dissection of a completed `Image::render` with a non-empty `area`:
success implies every covered cell and the anchor were inside the grid, and
the resulting grid is exactly `compositeResult`. -/
theorem render_some_inv {img : Image} {area : Rect} {b b' : Buffer}
    (haw : area.width ≠ 0) (hah : area.height ≠ 0)
    (h : img.render area b = some b') :
    (∀ j ∈ List.range' img.rect.top img.rect.height,
      ∀ i ∈ List.range' img.rect.left img.rect.width, i < b.width ∧ j < b.height) ∧
      img.rect.left < b.width ∧ img.rect.top < b.height ∧
      b' = compositeResult img b := by
  unfold Image.render at h
  rw [if_neg (by simp [haw, hah])] at h
  cases hsr : skipRows (List.range' img.rect.left img.rect.width)
      (List.range' img.rect.top img.rect.height) b with
  | none => rw [hsr] at h; cases h
  | some b₁ =>
    rw [hsr] at h
    obtain ⟨hW, hH, hbnd, -⟩ := skipRows_some hsr
    obtain ⟨hxa, hya, -, -, -⟩ := get_mut_some h
    rw [hW] at hxa
    rw [hH] at hya
    have hfull := render_eq_some img area b haw hah
      (fun j hj i hi => hbnd j hj i hi) hxa hya
    have hrender : img.render area b = some b' := by
      unfold Image.render
      rw [if_neg (by simp [haw, hah]), hsr]
      exact h
    rw [hfull] at hrender
    exact ⟨fun j hj i hi => hbnd j hj i hi, hxa, hya, (Option.some.inj hrender).symm⟩

theorem compositeResult_idem (img : Image) (b : Buffer) :
    compositeResult img (compositeResult img b) = compositeResult img b := by
  refine Buffer.ext_of _ _ rfl rfl ?_
  intro i j
  simp only [compositeResult]
  by_cases hanch : i = img.rect.left ∧ j = img.rect.top
  · simp only [if_pos hanch]
    rfl
  · simp only [if_neg hanch]
    by_cases hm : img.rect.containsCell i j
    · simp only [if_pos hm]
      rfl
    · simp only [if_neg hm]

/-! ### Claim theorems -/

/-- Claim C1: after compositing an image with a non-empty rectangle lying
within the grid's bounds (the widget being actually drawn, i.e. a non-empty
render area), every cell of the rectangle except the top-left anchor has
`skip = true`, and the anchor cell has `skip = false` and its symbol equal to
the image payload — for every grid state, payload, and such rectangle. -/
theorem c1_skip_invariant (img : Image) (area : Rect) (b : Buffer)
    (haw : area.width ≠ 0) (hah : area.height ≠ 0)
    (hrw : img.rect.width ≠ 0) (hrh : img.rect.height ≠ 0)
    (hx : img.rect.right ≤ b.width) (hy : img.rect.bottom ≤ b.height) :
    ∃ b', img.render area b = some b' ∧
      (∀ i j, img.rect.containsCell i j → ¬(i = img.rect.left ∧ j = img.rect.top) →
        (b'.cells i j).skip = true) ∧
      (b'.cells img.rect.left img.rect.top).skip = false ∧
      (b'.cells img.rect.left img.rect.top).symbol = img.data := by
  have hxa : img.rect.left < b.width := by
    unfold Rect.right at hx
    unfold Rect.left
    omega
  have hya : img.rect.top < b.height := by
    unfold Rect.bottom at hy
    unfold Rect.top
    omega
  have hb : ∀ j ∈ List.range' img.rect.top img.rect.height,
      ∀ i ∈ List.range' img.rect.left img.rect.width, i < b.width ∧ j < b.height := by
    intro j hj i hi
    rw [List.mem_range'_1] at hj hi
    unfold Rect.right at hx
    unfold Rect.bottom at hy
    unfold Rect.left at hi
    unfold Rect.top at hj
    omega
  refine ⟨compositeResult img b, render_eq_some img area b haw hah hb hxa hya, ?_, ?_, ?_⟩
  · intro i j hm hanch
    simp only [compositeResult, if_neg hanch, if_pos hm, Cell.set_skip]
  · simp [compositeResult, Cell.set_skip, Cell.set_symbol]
  · simp [compositeResult, Cell.set_skip, Cell.set_symbol]

/-- Witness for C1: a 2×2 rectangle at (1,1) composited into a 4×4 grid. -/
theorem c1_skip_invariant_witness :
    ∃ b', Image.render ⟨"px", ⟨1, 1, 2, 2⟩⟩ ⟨0, 0, 5, 5⟩
        ⟨4, 4, fun _ _ => ⟨" ", 0, false⟩⟩ = some b' ∧
      (∀ i j, Rect.containsCell ⟨1, 1, 2, 2⟩ i j → ¬(i = 1 ∧ j = 1) →
        (b'.cells i j).skip = true) ∧
      (b'.cells 1 1).skip = false ∧
      (b'.cells 1 1).symbol = "px" :=
  c1_skip_invariant ⟨"px", ⟨1, 1, 2, 2⟩⟩ ⟨0, 0, 5, 5⟩ ⟨4, 4, fun _ _ => ⟨" ", 0, false⟩⟩
    (by decide) (by decide) (by decide) (by decide) (by decide) (by decide)

/-- Counterexample to claim C2: compositing a 3×1 rectangle into a 2×2 grid is
not clipped to the intersection — the loop reaches `Buffer::get_mut(2, 0)`,
an out-of-range cell access (a panic in the grid implementation), modelled as
`none`; no clipped grid state is produced. -/
theorem c2_counterexample :
    Image.render ⟨"P", ⟨0, 0, 3, 1⟩⟩ ⟨0, 0, 1, 1⟩
      ⟨2, 2, fun _ _ => ⟨" ", 0, false⟩⟩ = none := rfl

/-- Claim C2 amended: `Image::render` performs no clipping. For every
non-empty target rectangle extending beyond the grid's bounds (and a
non-empty render area), the skip loop performs an out-of-range cell access —
modelled as the fault result `none` — instead of writing a clipped
rectangle. -/
theorem c2_no_clipping (img : Image) (area : Rect) (b : Buffer)
    (haw : area.width ≠ 0) (hah : area.height ≠ 0)
    (hrw : img.rect.width ≠ 0) (hrh : img.rect.height ≠ 0)
    (hover : b.width < img.rect.right ∨ b.height < img.rect.bottom) :
    img.render area b = none := by
  unfold Image.render
  rw [if_neg (by simp [haw, hah])]
  have hnone : skipRows (List.range' img.rect.left img.rect.width)
      (List.range' img.rect.top img.rect.height) b = none := by
    apply skipRows_eq_none
    unfold Rect.right Rect.bottom at hover
    unfold Rect.left Rect.top
    cases hover with
    | inl hw =>
      refine ⟨img.rect.y, ?_, max img.rect.x b.width, ?_, ?_⟩
      · rw [List.mem_range'_1]
        omega
      · rw [List.mem_range'_1]
        constructor
        · exact Nat.le_max_left _ _
        · omega
      · intro hcontra
        exact absurd hcontra.1 (Nat.not_lt.mpr (Nat.le_max_right _ _))
    | inr hh =>
      refine ⟨max img.rect.y b.height, ?_, img.rect.x, ?_, ?_⟩
      · rw [List.mem_range'_1]
        constructor
        · exact Nat.le_max_left _ _
        · omega
      · rw [List.mem_range'_1]
        omega
      · intro hcontra
        exact absurd hcontra.2 (Nat.not_lt.mpr (Nat.le_max_right _ _))
  rw [hnone]

/-- Witness for the amended C2: a 1×5 rectangle at the origin of a 3×3 grid
overruns the bottom edge and faults. -/
theorem c2_no_clipping_witness :
    Image.render ⟨"Q", ⟨0, 0, 1, 5⟩⟩ ⟨0, 0, 2, 2⟩
      ⟨3, 3, fun _ _ => ⟨".", 0, false⟩⟩ = none :=
  c2_no_clipping ⟨"Q", ⟨0, 0, 1, 5⟩⟩ ⟨0, 0, 2, 2⟩ ⟨3, 3, fun _ _ => ⟨".", 0, false⟩⟩
    (by decide) (by decide) (by decide) (by decide) (by decide)

/-- Counterexample to claim C5: compositing with a zero-area target rectangle
(width 0) is not a no-op — the final `get_mut` write is unconditional, so the
anchor cell (0,0) of a 2×2 grid has its symbol changed from "q" to the
payload "P". Only the render-area argument, not the image's rectangle, is
checked for emptiness. -/
theorem c5_counterexample :
    ((Image.render ⟨"P", ⟨0, 0, 0, 2⟩⟩ ⟨0, 0, 1, 1⟩
        ⟨2, 2, fun _ _ => ⟨"q", 0, false⟩⟩).map fun b => (b.cells 0 0).symbol) = some "P" ∧
    ((⟨2, 2, fun _ _ => ⟨"q", 0, false⟩⟩ : Buffer).cells 0 0).symbol = "q" :=
  ⟨rfl, rfl⟩

/-- Claim C5 amended: compositing with a zero-area target rectangle (and a
non-empty render area, with the rectangle's top-left corner inside the grid)
skips no cells but still writes the anchor cell — `skip = false`, `symbol =`
payload — leaving every other cell unchanged. It is a no-op only when the
render-area argument itself has zero width or height. -/
theorem c5_zero_rect_writes_anchor (img : Image) (area : Rect) (b : Buffer)
    (haw : area.width ≠ 0) (hah : area.height ≠ 0)
    (hz : img.rect.width = 0 ∨ img.rect.height = 0)
    (hxa : img.rect.left < b.width) (hya : img.rect.top < b.height) :
    img.render area b = some ⟨b.width, b.height, fun i j =>
      if i = img.rect.left ∧ j = img.rect.top then
        ((b.cells i j).set_skip false).set_symbol img.data
      else b.cells i j⟩ := by
  have hb : ∀ j ∈ List.range' img.rect.top img.rect.height,
      ∀ i ∈ List.range' img.rect.left img.rect.width, i < b.width ∧ j < b.height := by
    intro j hj i hi
    rw [List.mem_range'_1] at hj hi
    cases hz with
    | inl h0 => omega
    | inr h0 => omega
  rw [render_eq_some img area b haw hah hb hxa hya]
  refine congrArg some (Buffer.ext_of _ _ rfl rfl ?_)
  intro i j
  simp only [compositeResult]
  by_cases hanch : i = img.rect.left ∧ j = img.rect.top
  · rw [if_pos hanch, if_pos hanch]
  · rw [if_neg hanch, if_neg hanch]
    have hnc : ¬ img.rect.containsCell i j := by
      unfold Rect.containsCell Rect.left Rect.right Rect.top Rect.bottom
      omega
    rw [if_neg hnc]

/-- Witness for the amended C5: a 4×0 rectangle anchored at (2,0) in a 6×1
grid writes only the anchor. -/
theorem c5_zero_rect_writes_anchor_witness :
    Image.render ⟨"W", ⟨2, 0, 4, 0⟩⟩ ⟨0, 0, 3, 3⟩ ⟨6, 1, fun _ _ => ⟨"-", 7, true⟩⟩ =
      some ⟨6, 1, fun i j =>
        if i = 2 ∧ j = 0 then
          ((((⟨6, 1, fun _ _ => ⟨"-", 7, true⟩⟩ : Buffer).cells i j).set_skip false).set_symbol "W")
        else (⟨6, 1, fun _ _ => ⟨"-", 7, true⟩⟩ : Buffer).cells i j⟩ :=
  c5_zero_rect_writes_anchor ⟨"W", ⟨2, 0, 4, 0⟩⟩ ⟨0, 0, 3, 3⟩
    ⟨6, 1, fun _ _ => ⟨"-", 7, true⟩⟩ (by decide) (by decide) (by decide) (by decide) (by decide)

/-- Claim C6: compositing is idempotent — rendering twice in succession with
identical arguments (the second call consuming the grid produced by the
first) yields exactly the grid state of a single call, for every grid state,
payload, target rectangle and render area (a fault on the first call
propagates unchanged). -/
theorem c6_composite_idempotent (img : Image) (area : Rect) (b : Buffer) :
    (img.render area b).bind (img.render area) = img.render area b := by
  by_cases harea : area.width = 0 ∨ area.height = 0
  · have hid : img.render area b = some b := by
      unfold Image.render
      rw [if_pos harea]
    rw [hid]
    exact hid
  · push_neg at harea
    obtain ⟨haw, hah⟩ := harea
    cases hres : img.render area b with
    | none => rfl
    | some b' =>
      obtain ⟨hbnd, hxa, hya, rfl⟩ := render_some_inv haw hah hres
      show img.render area (compositeResult img b) = some (compositeResult img b)
      have h2 := render_eq_some img area (compositeResult img b) haw hah
        (fun j hj i hi => hbnd j hj i hi) hxa hya
      rw [h2, compositeResult_idem]

/-- Claim C9: the compositor's output is independent of the render-area
argument — for any two non-empty areas, rendering produces the identical
result; the cells written are determined solely by the image's stored
rectangle. -/
theorem c9_area_independent (img : Image) (a₁ a₂ : Rect) (b : Buffer)
    (h1w : a₁.width ≠ 0) (h1h : a₁.height ≠ 0)
    (h2w : a₂.width ≠ 0) (h2h : a₂.height ≠ 0) :
    img.render a₁ b = img.render a₂ b := by
  unfold Image.render
  rw [if_neg (by simp [h1w, h1h]), if_neg (by simp [h2w, h2h])]

/-- Witness for C9: two different non-empty areas at a concrete input. -/
theorem c9_area_independent_witness :
    Image.render ⟨"Z", ⟨0, 0, 2, 1⟩⟩ ⟨0, 0, 9, 9⟩ ⟨3, 3, fun _ _ => ⟨"o", 1, false⟩⟩ =
      Image.render ⟨"Z", ⟨0, 0, 2, 1⟩⟩ ⟨5, 5, 1, 2⟩ ⟨3, 3, fun _ _ => ⟨"o", 1, false⟩⟩ :=
  c9_area_independent ⟨"Z", ⟨0, 0, 2, 1⟩⟩ ⟨0, 0, 9, 9⟩ ⟨5, 5, 1, 2⟩
    ⟨3, 3, fun _ _ => ⟨"o", 1, false⟩⟩ (by decide) (by decide) (by decide) (by decide)

/-- Counterexample to claim C10: with a zero-width stored rectangle `(1,1,0,3)`
(which covers no cell at all), rendering with a non-empty area still modifies
cell (1,1) — a cell outside the rectangle — changing its symbol from "m" to
the payload "Z", because the anchor write is unconditional. -/
theorem c10_counterexample :
    ¬ Rect.containsCell ⟨1, 1, 0, 3⟩ 1 1 ∧
    ((Image.render ⟨"Z", ⟨1, 1, 0, 3⟩⟩ ⟨0, 0, 2, 2⟩
        ⟨3, 3, fun _ _ => ⟨"m", 0, false⟩⟩).map fun b => (b.cells 1 1).symbol) = some "Z" ∧
    ((⟨3, 3, fun _ _ => ⟨"m", 0, false⟩⟩ : Buffer).cells 1 1).symbol = "m" :=
  ⟨by decide, rfl, rfl⟩

/-- Claim C10 amended: when the render area is non-empty and the stored
rectangle is non-empty, a completed composite modifies only cells inside the
stored rectangle — every covered cell other than the top-left anchor gets
only its skip flag changed (symbol and style untouched), and every cell
outside the rectangle is left entirely unchanged. (For a zero-area stored
rectangle the anchor cell, which lies outside it, is still written.) -/
theorem c10_only_rect_modified (img : Image) (area : Rect) (b b' : Buffer)
    (haw : area.width ≠ 0) (hah : area.height ≠ 0)
    (hrw : img.rect.width ≠ 0) (hrh : img.rect.height ≠ 0)
    (h : img.render area b = some b') :
    (∀ i j, ¬ img.rect.containsCell i j → b'.cells i j = b.cells i j) ∧
    (∀ i j, img.rect.containsCell i j → ¬(i = img.rect.left ∧ j = img.rect.top) →
      b'.cells i j = (b.cells i j).set_skip true) := by
  obtain ⟨-, -, -, rfl⟩ := render_some_inv haw hah h
  constructor
  · intro i j hout
    have hanch : ¬(i = img.rect.left ∧ j = img.rect.top) := by
      intro hcontra
      apply hout
      unfold Rect.containsCell Rect.left Rect.right Rect.top Rect.bottom
      unfold Rect.left Rect.top at hcontra
      omega
    simp only [compositeResult, if_neg hanch, if_neg hout]
  · intro i j hin hanch
    simp only [compositeResult, if_neg hanch, if_pos hin]

/-- Witness for the amended C10: a 2×2 rectangle at (1,1) in a 4×4 grid;
cell (0,0) lies outside and keeps its value, covered cell (2,1) is
skip-marked with symbol and style untouched. -/
theorem c10_only_rect_modified_witness :
    (compositeResult ⟨"Y", ⟨1, 1, 2, 2⟩⟩ ⟨4, 4, fun _ _ => ⟨"n", 3, false⟩⟩).cells 0 0 =
      (⟨4, 4, fun _ _ => ⟨"n", 3, false⟩⟩ : Buffer).cells 0 0 ∧
    (compositeResult ⟨"Y", ⟨1, 1, 2, 2⟩⟩ ⟨4, 4, fun _ _ => ⟨"n", 3, false⟩⟩).cells 2 1 =
      ((⟨4, 4, fun _ _ => ⟨"n", 3, false⟩⟩ : Buffer).cells 2 1).set_skip true := by
  have h := c10_only_rect_modified ⟨"Y", ⟨1, 1, 2, 2⟩⟩ ⟨0, 0, 8, 8⟩
    ⟨4, 4, fun _ _ => ⟨"n", 3, false⟩⟩
    (compositeResult ⟨"Y", ⟨1, 1, 2, 2⟩⟩ ⟨4, 4, fun _ _ => ⟨"n", 3, false⟩⟩)
    (by decide) (by decide) (by decide) (by decide)
    (render_eq_some ⟨"Y", ⟨1, 1, 2, 2⟩⟩ ⟨0, 0, 8, 8⟩ ⟨4, 4, fun _ _ => ⟨"n", 3, false⟩⟩
      (by decide) (by decide)
      (by decide) (by decide) (by decide))
  exact ⟨h.1 0 0 (by decide), h.2 2 1 (by decide) (by decide)⟩

/-- Counterexample to claim C3: with geometry cols=rows=1, 1×1 pixel cell
(derived cell dimensions 1 ≥ 1) and a 65536×1 source bitmap, the resize step
does not produce a 65536-wide image — the cell footprint `65536 / 1` no
longer fits in `u16`, so `try_into().unwrap()` panics (modelled `none`). -/
theorem c3_counterexample :
    (1 : Nat) / 1 = 1 ∧ resize_to_terminal 1 1 1 1 65536 1 = none :=
  ⟨rfl, rfl⟩

/-- Claim C3 amended: for every source bitmap and geometry whose derived cell
pixel dimensions are both at least 1 and whose derived cell footprint fits in
`u16` (both footprint components < 65536), the grid-aligned resize yields
pixel width `w - w % cell_w` and pixel height `h - h % cell_h`, each
divisible by the corresponding cell dimension. -/
theorem c3_resize_grid_aligned (cols rows pxW pxH w h : Nat)
    (hcw : 0 < pxW / cols) (hch : 0 < pxH / rows)
    (hfw : (w - w % (pxW / cols)) / (pxW / cols) < 65536)
    (hfh : (h - h % (pxH / rows)) / (pxH / rows) < 65536) :
    resize_to_terminal cols rows pxW pxH w h =
      some (w - w % (pxW / cols), h - h % (pxH / rows),
        ⟨0, 0, (w - w % (pxW / cols)) / (pxW / cols),
          (h - h % (pxH / rows)) / (pxH / rows)⟩) ∧
    (pxW / cols) ∣ (w - w % (pxW / cols)) ∧ (pxH / rows) ∣ (h - h % (pxH / rows)) := by
  have hc0 : cols ≠ 0 := by
    rintro rfl
    simp [Nat.div_zero] at hcw
  have hr0 : rows ≠ 0 := by
    rintro rfl
    simp [Nat.div_zero] at hch
  refine ⟨?_, ?_, ?_⟩
  · simp only [resize_to_terminal]
    rw [if_neg (by simp [hc0, hr0]), if_neg (by omega), if_pos ⟨hfw, hfh⟩]
  · have h1 := Nat.div_add_mod w (pxW / cols)
    exact ⟨w / (pxW / cols), by omega⟩
  · have h1 := Nat.div_add_mod h (pxH / rows)
    exact ⟨h / (pxH / rows), by omega⟩

/-- Witness for the amended C3 at the spec's own scenario: 80×24 cells,
800×480 pixels (10×20 per cell), source 105×207. -/
theorem c3_resize_grid_aligned_witness :
    resize_to_terminal 80 24 800 480 105 207 = some (100, 200, ⟨0, 0, 10, 10⟩) ∧
    (10 : Nat) ∣ 100 ∧ (20 : Nat) ∣ 200 :=
  c3_resize_grid_aligned 80 24 800 480 105 207 (by decide) (by decide) (by decide) (by decide)

/-- Counterexample to claim C4: a terminal reporting 200 columns but only 100
pixels of width derives cell width `100 / 200 = 0`; the resize step then hits
`img.width() % 0`, a remainder by zero that panics (modelled `none`) — no
`GeometryError` value exists anywhere in the code to be returned. -/
theorem c4_counterexample :
    (100 : Nat) / 200 = 0 ∧ resize_to_terminal 200 50 100 600 42 42 = none :=
  ⟨rfl, rfl⟩

/-- Claim C4 amended: for every geometry (with nonzero columns and rows) whose
derived cell pixel width or height is 0, the resize step panics on the
remainder-by-zero (modelled as `none`) instead of returning a `GeometryError`
— the code defines no error type and unwraps every fallible step. -/
theorem c4_zero_cell_panics (cols rows pxW pxH w h : Nat)
    (hc : cols ≠ 0) (hr : rows ≠ 0)
    (h0 : pxW / cols = 0 ∨ pxH / rows = 0) :
    resize_to_terminal cols rows pxW pxH w h = none := by
  simp only [resize_to_terminal]
  rw [if_neg (by simp [hc, hr]), if_pos h0]

/-- Witness for the amended C4: 100 columns over 50 pixels gives cell width 0
and the resize faults. -/
theorem c4_zero_cell_panics_witness :
    resize_to_terminal 100 24 50 480 7 7 = none :=
  c4_zero_cell_panics 100 24 50 480 7 7 (by decide) (by decide) (by decide)

/-- The 10×10 grid of blank cells used in the end-to-end scenario. -/
def c7Buf : Buffer := ⟨10, 10, fun _ _ => ⟨" ", 0, false⟩⟩

/-- The image entity of the end-to-end scenario: the encoded payload with the
10×10-cell footprint computed by the resize step. -/
def c7Img : Image := ⟨"SIXEL", ⟨0, 0, 10, 10⟩⟩

/-- Scenario check: after compositing `c7Img` at the grid origin, cell (0,0)
holds the payload with `skip = false` and the 99 other cells of the 10×10
block have `skip = true`. -/
def c7Check : Bool :=
  match c7Img.render ⟨0, 0, 10, 10⟩ c7Buf with
  | none => false
  | some b =>
    (List.range 10).all fun j =>
      (List.range 10).all fun i =>
        if i = 0 ∧ j = 0 then
          !(b.cells i j).skip && (b.cells i j).symbol == "SIXEL"
        else
          (b.cells i j).skip

/-- Claim C7: for geometry {columns 80, rows 24, pixel 800×480} (cell =
10×20 px) and a 105×207 source bitmap, the resize yields a 100×200 image
with a 10×10-cell footprint, and compositing that footprint at grid origin
leaves cell (0,0) with the payload and `skip = false` and the 99 other cells
of the block with `skip = true`. -/
theorem c7_end_to_end :
    resize_to_terminal 80 24 800 480 105 207 = some (100, 200, ⟨0, 0, 10, 10⟩) ∧
    c7Check = true :=
  ⟨rfl, by decide⟩

/-- Counterexample to claim C8: with a decodable 105×207 source bitmap and a
healthy 80×24/800×480 geometry but a failing encoder, building the
`RenderedImage` does not leave the application running without the image —
`App::new` panics (`encoder.encode_bytes(frame).unwrap()`), modelled `none`,
before the render loop in `run` is ever entered. -/
theorem c8_counterexample :
    App.new (some (105, 207)) 80 24 800 480 none = none := rfl

/-- Claim C8 amended: a failed RenderedImage build (source decode failure or
encoder failure) panics the application inside `App::new` — called by `main`
before the render loop starts — so no frame is ever rendered; the loop never
continues without the image. -/
theorem c8_build_failure_aborts (decoded : Option (Nat × Nat)) (cols rows pxW pxH : Nat)
    (encoded : Option String)
    (hfail : decoded = none ∨ encoded = none) :
    App.new decoded cols rows pxW pxH encoded = none := by
  cases hfail with
  | inl hd =>
    rw [hd]
    rfl
  | inr he =>
    subst he
    cases decoded with
    | none => rfl
    | some wh =>
      obtain ⟨w, h⟩ := wh
      have hsix : Sixel.ofImage cols rows pxW pxH w h none = none := by
        unfold Sixel.ofImage
        cases hres : resize_to_terminal cols rows pxW pxH w h with
        | none => rfl
        | some t =>
          obtain ⟨a, b, r⟩ := t
          rfl
      simp [App.new, hsix]

/-- Witness for the amended C8: a failing decoder aborts `App::new`. -/
theorem c8_build_failure_aborts_witness :
    App.new none 19 5 7 11 (some "payload") = none :=
  c8_build_failure_aborts none 19 5 7 11 (some "payload") (Or.inl rfl)
